import Mathlib

/-!
Verification development for `showbook.py` (midwife-middleware/showbook).

The Python source is shallowly embedded below.  All physical lengths are
represented in integer units of 0.01 mm, so every constant of the source
(`4.2` mm line height, `19.05` mm gutter, ...) is an exact natural number
and the cursor arithmetic of the layout code is exact.  The floating-point
values in the source are exact decimals, and none of the comparisons proved
about below happen at a value where a double rounding error of ~1e-13 mm
could flip the result, so the integer model agrees with the float run.

Fallible code (cache loading) is embedded with `Except`; the JSON file
round trip of `save_cache`/`load_cache` is modelled at the level of the
parsed JSON structure (Python's `json.dump`/`json.load` preserve strings,
nulls, array order and object insertion order, which is all the cache uses).
-/

/-! ## Constants (src/showbook.py lines 39-46), scaled to 0.01 mm units -/

def TRIM_W : Nat := 15240          -- TRIM_W_MM = 152.4
def TRIM_H : Nat := 22860          -- TRIM_H_MM = 228.6
def MARGIN_GUTTER : Nat := 1905    -- MARGIN_GUTTER_MM = 19.05
def MARGIN_OUTSIDE : Nat := 1270   -- MARGIN_OUTSIDE_MM = 12.7
def MARGIN_TOP : Nat := 1270       -- MARGIN_TOP_MM = 12.7
def MARGIN_BOTTOM : Nat := 1270    -- MARGIN_BOTTOM_MM = 12.7
def KDP_MAX_PAGES : Nat := 828

/-- `self._bottom = TRIM_H_MM - MARGIN_BOTTOM_MM` (src line 220): the
content-area bottom limit. -/
def CONTENT_BOTTOM : Nat := TRIM_H - MARGIN_BOTTOM

/-- Height (0.01 mm) of one title line cell, `cell(0, 4.2, ...)` (src line 331). -/
def LINE_H : Nat := 420

/-! ## Data model -/

/-- A `(name, year)` tuple as produced by `fetch_titles` (src line 112):
the year is `None` or a string. -/
abbrev Title := String × Option String

/-- One provider's `{"Movies": [...], "Shows": [...]}` dict (src line 156). -/
structure Sections where
  movies : List Title
  shows : List Title
deriving DecidableEq

/-- The catalog: ordered mapping provider name -> sections (an `OrderedDict`
in the source; modelled as an association list preserving insertion order). -/
abbrev Catalog := List (String × Sections)

/-! ## `safe` (src lines 206-208)

`text.encode("latin-1", errors="replace").decode("latin-1")` keeps every
character whose code point is at most 255 and replaces every other
character with `?` (the byte the `replace` error handler emits). -/

def safeChar (c : Char) : Char := if c.toNat ≤ 255 then c else '?'

def safe (s : String) : String := ⟨s.data.map safeChar⟩

/-- A string that survives Latin-1 encoding unchanged. -/
def Latin1 (s : String) : Prop := ∀ c ∈ s.data, c.toNat ≤ 255

instance (s : String) : Decidable (Latin1 s) := by unfold Latin1; infer_instance

/-! ## Margins (ShowBook._apply_margins, src lines 222-234) -/

/-- Margins `(left, right, top)` set by `_apply_margins` for page number `n`:
odd page (recto) has the gutter on the left, even page (verso) has it on the
right; the top margin is set unconditionally. -/
def applyMargins (n : Nat) : Nat × Nat × Nat :=
  if n % 2 = 1 then (MARGIN_GUTTER, MARGIN_OUTSIDE, MARGIN_TOP)
  else (MARGIN_OUTSIDE, MARGIN_GUTTER, MARGIN_TOP)

/-! ## The FPDF-backed layout state

`ShowBook` (src lines 211-352) drives FPDF with `set_auto_page_break(False)`,
so the only page breaks are the explicit `add_page()` calls.  The state
records the current page number, the vertical cursor `y`, every text cell
emitted (in emission order), and the `(page, y, height)` geometry of each
title-list line cell (the cells placed by the loop of `_title_list`,
src lines 327-331 — the blocks the overflow check governs). -/

structure PDFState where
  edition : String
  page : Nat
  y : Nat
  margins : Nat × Nat × Nat
  texts : List String
  lines : List (Nat × Nat × Nat)
deriving DecidableEq

def initState (edition : String) : PDFState :=
  { edition := edition, page := 0, y := 0, margins := (0, 0, 0), texts := [], lines := [] }

/-- `cell(0, h, t, ln=True)`: emit the text at the cursor, advance `y` by `h`. -/
def cellLn (h : Nat) (t : String) (st : PDFState) : PDFState :=
  { st with y := st.y + h, texts := st.texts ++ [t] }

/-- `cell(0, h, t)` with no `ln`: emit the text, leave `y` unchanged
(used by `header`, src line 240). -/
def cellStay (_h : Nat) (t : String) (st : PDFState) : PDFState :=
  { st with texts := st.texts ++ [t] }

/-- `self.ln(h)`: advance the cursor. -/
def lnBy (h : Nat) (st : PDFState) : PDFState :=
  { st with y := st.y + h }

/-- `multi_cell(0, 5, t)` (title page quote / colophon).  The emitted text is
recorded; the cursor advance of a `multi_cell` depends on font-metric line
wrapping, but in this program every `multi_cell` is followed only by cells on
the same page and then an `add_page()`, so its exact advance is never
observed by any page-break decision.  It is modelled as one line height. -/
def multiCell (h : Nat) (t : String) (st : PDFState) : PDFState :=
  { st with y := st.y + h, texts := st.texts ++ [t] }

/-- `add_page()`: next 1-based page number, then FPDF runs `header()`
(src lines 236-245): `_apply_margins` (cursor to the top margin), and on
every page but page 1 the running-header cell of height 6 mm followed by
`ln(8)`. -/
def addPage (st : PDFState) : PDFState :=
  let p := st.page + 1
  let st' := { st with page := p, y := MARGIN_TOP, margins := applyMargins p }
  if 1 < p then
    lnBy 800 (cellStay 600
      (safe ("The Show and Movie Catalogue: " ++ st.edition ++ " Edition")) st')
  else st'

/-- `if st.page_no() odd, add a pad page` — the even-page-count finishing step
of `generate_pdf` (src lines 366-368). -/
def padEven (st : PDFState) : PDFState :=
  if st.page % 2 = 1 then addPage st else st

/-! ## `_title_list` (src lines 322-331) -/

/-- The year suffix `f" ({year})" if year else ""` (src line 330): Python
treats both `None` and the empty string as falsy. -/
def yearSuffix : Option String → String
  | none => ""
  | some y => if y = "" then "" else " (" ++ y ++ ")"

/-- The overflow check of the `_title_list` loop (src lines 328-329):
`if self.get_y() > self._bottom: self.add_page()`. -/
def breakIfPast (st : PDFState) : PDFState :=
  if CONTENT_BOTTOM < st.y then addPage st else st

/-- One iteration of the `_title_list` loop (src lines 327-331): the overflow
check, then the line cell placed whole.  The placed geometry is recorded in
`lines`. -/
def placeLine (st : PDFState) (t : Title) : PDFState :=
  { breakIfPast st with
      y := (breakIfPast st).y + LINE_H,
      texts := (breakIfPast st).texts ++ [safe ("  " ++ t.1 ++ yearSuffix t.2)],
      lines := (breakIfPast st).lines ++
        [((breakIfPast st).page, (breakIfPast st).y, LINE_H)] }

def placeLines (ts : List Title) (st : PDFState) : PDFState :=
  ts.foldl placeLine st

/-- `_title_list(heading, titles)`: the `"{heading} ({len(titles)})"` cell of
height 9 mm (no overflow check), `ln(2)`, then the title-line loop. -/
def titleList (heading : String) (ts : List Title) (st : PDFState) : PDFState :=
  placeLines ts (lnBy 200 (cellLn 900
    (safe (heading ++ " (" ++ Nat.repr ts.length ++ ")")) st))

/-! ## The fixed template (title page, index, sections, colophon) -/

/-- `title_page` (src lines 252-280). -/
def titlePage (st : PDFState) : PDFState :=
  let st := addPage st
  let st := cellLn 4500 "" st
  let st := cellLn 800 "The" st
  let st := cellLn 1500 "Show and Movie" st
  let st := cellLn 1500 "Catalogue" st
  let st := lnBy 600 st
  let st := cellLn 1000 (safe (st.edition ++ " Edition")) st
  let st := lnBy 2000 st
  let st := multiCell 500 (safe
    ("\"Crazy when you get a new streaming service and see all\n" ++
     "these shows and movies you forgot existed. Like oh that\x27s\n" ++
     "where these were. They should make some kind of interface\n" ++
     "where you could surf through all the different options at once.\n" ++
     "Or maybe a book to tell you what\x27s on where.\"\n\n— @deepfates")) st
  let st := lnBy 1500 st
  cellLn 500 (safe "(Already out of date.)") st

/-- The per-provider count text of the index loop (src line 296). -/
def countText (p : String × Sections) : String :=
  "    " ++ Nat.repr p.2.movies.length ++ " movies, " ++
    Nat.repr p.2.shows.length ++ " shows"

/-- The per-provider `(name, movie count, show count)` triples the index
prints, in catalog order (src lines 291-296). -/
def indexCounts (catalog : Catalog) : List (String × Nat × Nat) :=
  catalog.map (fun p => (p.1, p.2.movies.length, p.2.shows.length))

/-- `total = sum(len(s["Movies"]) + len(s["Shows"]) ...)` (src lines 301-303). -/
def indexTotal (catalog : Catalog) : Nat :=
  (catalog.map (fun p => p.2.movies.length + p.2.shows.length)).sum

/-- The provider loop of `index_page` (src lines 291-298). -/
def indexBody (catalog : Catalog) (st : PDFState) : PDFState :=
  catalog.foldl
    (fun st p => lnBy 200 (cellLn 600 (safe (countText p)) (cellLn 700 (safe p.1) st)))
    st

/-- `index_page` (src lines 282-308). -/
def indexPage (catalog : Catalog) (st : PDFState) : PDFState :=
  let st := addPage st
  let st := cellLn 1400 "Index" st
  let st := lnBy 800 st
  let st := indexBody catalog st
  let st := lnBy 800 st
  let st := lnBy 400 st
  cellLn 700 (safe (Nat.repr (indexTotal catalog) ++ " titles across " ++
    Nat.repr catalog.length ++ " services")) st

/-- The heading of `provider_section` before the two title lists
(src lines 311-316). -/
def sectionHead (name : String) (st : PDFState) : PDFState :=
  lnBy 600 (cellLn 1400 (safe name) (addPage st))

/-- `provider_section` (src lines 310-320). -/
def providerSection (name : String) (s : Sections) (st : PDFState) : PDFState :=
  titleList "Shows" s.shows (lnBy 500 (titleList "Movies" s.movies (sectionHead name st)))

/-- `back_matter` (src lines 333-352). -/
def backMatter (st : PDFState) : PDFState :=
  let st := addPage st
  let st := cellLn 7000 "" st
  let st := cellLn 700 "Colophon" st
  let st := lnBy 400 st
  multiCell 500 (safe
    ("Generated by ShowBook\ngithub.com/midwife-middleware/showbook\n\n" ++
     "Streaming data provided by TMDB (themoviedb.org).\n" ++
     "This product uses the TMDB API but is not\n" ++
     "endorsed or certified by TMDB.\n\n" ++
     "You could have just scrolled through the apps,\n" ++
     "but no. You wanted a book.\nHere\x27s your book.")) st

/-- The page-building part of `generate_pdf` (src lines 355-368): title page,
index, one section per provider in catalog order, colophon, even-page pad. -/
def buildPages (catalog : Catalog) (edition : String) : PDFState :=
  padEven (backMatter
    (catalog.foldl (fun st p => providerSection p.1 p.2 st)
      (indexPage catalog (titlePage (initState edition)))))

/-- All text ever written into the PDF: the body cells in emission order plus
the footer of each page, `f"{self.page_no()}"` (src line 250). -/
def emittedTexts (catalog : Catalog) (edition : String) : List String :=
  let st := buildPages catalog edition
  st.texts ++ (List.range st.page).map (fun i => Nat.repr (i + 1))

/-- The observable effects of the tail of `generate_pdf` (src lines 370-377):
`pdf.output(output_path)` always runs, then the advisory warning is printed
only when the realized page count exceeds the KDP ceiling. -/
inductive OutEffect where
  | output (path : String)
  | warned
deriving DecidableEq

/-- `generate_pdf` (src lines 355-377): returns `(output_path, pages)` and the
effect trace of its tail. -/
def generate_pdf (catalog : Catalog) (edition : String) (path : String) :
    (String × Nat) × List OutEffect :=
  ((path, (buildPages catalog edition).page),
    OutEffect.output path ::
      (if KDP_MAX_PAGES < (buildPages catalog edition).page then
        [OutEffect.warned]
      else []))

/-- The count of pages after the even-page pad, as a function of the count
before it (the arithmetic content of src lines 367-368). -/
def finishPages (n : Nat) : Nat := if n % 2 = 1 then n + 1 else n

/-! ## `fetch_titles` post-processing (src lines 125-133)

The dedup key `name.lower()` (src line 129) and the sort key
`t[0].casefold()` (src line 133) are Unicode-table case mappings implemented
by the Python runtime, external to this program; the embedding takes them as
two separate parameters `lo` and `cf` of the dedup/sort pipeline, and the
structural claims below are proved for every choice of `lo` and `cf` — so in
particular for the real `str.lower` and `str.casefold`.  What the source
itself fixes is how the keys are used: the `seen`-set membership test on the
`lo`-keys, the code-point-lexicographic comparison of the `cf`-keys
(`lexLe` below, Python string comparison), and `sorted` being a stable
sort — a stable sort is a unique function of the key order, so the stable
`List.insertionSort` computes the same list.  On the ASCII names of the
claimed example both `str.lower` and `str.casefold` are exactly ASCII
lowering (`asciiLower`), which instantiates the example. -/

/-- ASCII lowering: the value of both `str.lower()` and `str.casefold()` on
the ASCII strings of the claimed example. -/
def asciiLower (s : String) : String := ⟨s.data.map Char.toLower⟩

/-- Code-point lexicographic `<=` on character lists — Python string
comparison. -/
def lexLe : List Char → List Char → Bool
  | [], _ => true
  | _ :: _, [] => false
  | a :: as, b :: bs => if a < b then true else if a = b then lexLe as bs else false

/-- The sort relation of `sorted(unique, key=lambda t: t[0].casefold())`,
for a given casefold function `cf`. -/
def titleLe (cf : String → String) (a b : Title) : Prop :=
  lexLe (cf a.1).data (cf b.1).data = true

instance (cf : String → String) : DecidableRel (titleLe cf) := fun _ _ => by
  unfold titleLe; infer_instance

/-- The dedup loop of `fetch_titles` (src lines 126-132): a `seen` set of
`lo`-lowered names, first occurrence wins. -/
def dedupFirstAux (lo : String → String) (seen : List String) :
    List Title → List Title
  | [] => []
  | t :: ts =>
    if lo t.1 ∈ seen then dedupFirstAux lo seen ts
    else t :: dedupFirstAux lo (lo t.1 :: seen) ts

def dedupFirst (lo : String → String) (ts : List Title) : List Title :=
  dedupFirstAux lo [] ts

/-- The deduplicate-and-sort tail of `fetch_titles` (src lines 125-133),
parameterized by the dedup key function `lo` (`str.lower`) and the sort key
function `cf` (`str.casefold`). -/
def dedupSortTitles (lo cf : String → String) (ts : List Title) : List Title :=
  List.insertionSort (titleLe cf) (dedupFirst lo ts)

/-! ## Per-item title extraction in `fetch_titles` (src lines 106-112) -/

/-- One raw item of a TMDB discover result, with the fields the source reads. -/
structure TmdbItem where
  title : Option String
  name : Option String
  release_date : Option String
  first_air_date : Option String

/-- Python `a or b` on `item.get(...)` results: `None` and `""` are falsy. -/
def pyOr (a : Option String) (b : String) : String :=
  match a with
  | some s => if s = "" then b else s
  | none => b

/-- `item.get("title") or item.get("name") or "Unknown"` (src line 107). -/
def itemName (it : TmdbItem) : String := pyOr it.title (pyOr it.name "Unknown")

/-- `item.get("release_date") or item.get("first_air_date") or ""` (src line 109). -/
def itemRelease (it : TmdbItem) : String :=
  pyOr it.release_date (pyOr it.first_air_date "")

/-- `year = release[:4] if release else None` (src lines 108-111). -/
def itemYear (it : TmdbItem) : Option String :=
  if itemRelease it = "" then none else some ((itemRelease it).take 4)

/-- The `(name, year)` tuple appended for one item (src line 112). -/
def itemTitle (it : TmdbItem) : Title := (itemName it, itemYear it)

/-- A 4-digit string, the year shape the spec asserts. -/
def isFourDigit (s : String) : Bool := s.length == 4 && s.data.all Char.isDigit

/-- The year invariant exactly as the claim states it. -/
def yearOk : Option String → Bool
  | none => true
  | some s => isFourDigit s

/-- A release string as the TMDB API documents it (`YYYY-MM-DD` or empty):
empty, or starting with four digits. -/
def releaseWellFormed (it : TmdbItem) : Prop :=
  itemRelease it = "" ∨
    (4 ≤ (itemRelease it).length ∧ ∀ c ∈ (itemRelease it).data.take 4, c.isDigit)

/-! ## Cache store (src lines 169-199), at the parsed-JSON level -/

inductive Json where
  | null
  | str (s : String)
  | arr (xs : List Json)
  | obj (kvs : List (String × Json))

/-- A `(name, year)` tuple as JSON: `json.dump` writes a 2-tuple as a
2-element array, `None` as `null`. -/
def encodeTitle : Title → Json
  | (n, some y) => .arr [.str n, .str y]
  | (n, none) => .arr [.str n, .null]

def encodeSections (s : Sections) : Json :=
  .obj [("Movies", .arr (s.movies.map encodeTitle)),
        ("Shows", .arr (s.shows.map encodeTitle))]

/-- `save_cache` (src lines 169-181): the JSON structure written to the dated
file — `fetched_at`, `region`, and the full catalog under `providers`. -/
def save_cache (catalog : Catalog) (region : String) (fetchedAt : String) : Json :=
  .obj [("fetched_at", .str fetchedAt),
        ("region", .str region),
        ("providers", .obj (catalog.map (fun p => (p.1, encodeSections p.2))))]

/-- Python dict key lookup on a parsed JSON object. -/
def jsonLookup (kvs : List (String × Json)) (k : String) : Option Json :=
  (kvs.find? (fun kv => kv.1 = k)).map Prod.snd

/-- `tuple(t)` on one title entry (src lines 192-193), typed: a 2-element
`[name, year-or-null]` array becomes a `(name, year)` tuple; any other shape
is a malformed cache file. -/
def decodeTitle : Json → Except String Title
  | .arr [.str n, .str y] => .ok (n, some y)
  | .arr [.str n, .null] => .ok (n, none)
  | _ => .error "malformed title entry"

def decodeTitles : Json → Except String (List Title)
  | .arr xs => xs.mapM decodeTitle
  | _ => .error "title list is not an array"

/-- Rebuild one provider's sections from `sections["Movies"]` and
`sections["Shows"]` (src lines 191-194); a missing key is Python's fatal
`KeyError`. -/
def decodeSections (j : Json) : Except String Sections :=
  match j with
  | .obj kvs =>
    match jsonLookup kvs "Movies", jsonLookup kvs "Shows" with
    | some m, some s => do
      let ms ← decodeTitles m
      let ss ← decodeTitles s
      Except.ok ⟨ms, ss⟩
    | _, _ => .error "KeyError"
  | _ => .error "sections is not an object"

/-- `load_cache` (src lines 184-199): read `data["providers"]` and rebuild
the ordered catalog, converting title lists back to tuples. -/
def load_cache (j : Json) : Except String Catalog :=
  match j with
  | .obj kvs =>
    match jsonLookup kvs "providers" with
    | some (.obj provs) =>
      provs.mapM (fun p => do
        let s ← decodeSections p.2
        Except.ok (p.1, s))
    | some _ => .error "providers is not an object"
    | none => .error "KeyError: providers"
  | _ => .error "cache file is not an object"

/-! ## Instrumentation for the index-versus-sections invariant -/

/-- One provider section exactly as `providerSection` renders it, returning
also the number of title-line cells actually emitted for the Movies list and
for the Shows list of this provider. -/
def sectionStep (acc : PDFState × List (String × Nat × Nat)) (p : String × Sections) :
    PDFState × List (String × Nat × Nat) :=
  let st0 := sectionHead p.1 acc.1
  let st1 := titleList "Movies" p.2.movies st0
  let st2 := titleList "Shows" p.2.shows (lnBy 500 st1)
  (st2, acc.2 ++ [(p.1, st1.lines.length - st0.lines.length,
                   st2.lines.length - st1.lines.length)])

/-- The `(name, rendered movie lines, rendered show lines)` triples of the
actual section rendering pass, in rendering order. -/
def sectionsRenderedCounts (catalog : Catalog) (edition : String) :
    List (String × Nat × Nat) :=
  (catalog.foldl sectionStep
    (indexPage catalog (titlePage (initState edition)), [])).2

/-! ## Concrete inputs used by counterexamples and witnesses -/

/-- A catalog with one provider and 40 movies: enough that the 40th line of
its Movies list starts at cursor 215.5 mm, inside the last line height above
the 215.9 mm content bottom. -/
def cexCatalog : Catalog := [("Provider", ⟨List.replicate 40 ("Title", none), []⟩)]

/-- The claim C5 example input `["Dune", "dune", "Dune: Part Two"]`. -/
def duneInput : List Title :=
  [("Dune", some "2021"), ("dune", some "1984"), ("Dune: Part Two", some "2024")]

def duneOutput : List Title :=
  [("Dune", some "2021"), ("Dune: Part Two", some "2024")]

/-- A TMDB item whose release date is the two-character string `"19"`. -/
def shortReleaseItem : TmdbItem :=
  { title := some "X", name := none, release_date := some "19", first_air_date := none }

/-! # Helper lemmas -/

theorem safeChar_le (c : Char) : (safeChar c).toNat ≤ 255 := by
  unfold safeChar; split
  · assumption
  · decide

theorem latin1_safe (s : String) : Latin1 (safe s) := by
  intro c hc
  simp only [safe, String.data] at hc
  obtain ⟨c', _, rfl⟩ := List.mem_map.mp hc
  exact safeChar_le c'

theorem map_safeChar_eq_self (l : List Char) (h : ∀ c ∈ l, c.toNat ≤ 255) :
    l.map safeChar = l := by
  induction l with
  | nil => rfl
  | cons a l ih =>
    simp only [List.map_cons, List.cons.injEq]
    refine ⟨?_, ih (fun c hc => h c (List.mem_cons_of_mem a hc))⟩
    unfold safeChar
    exact if_pos (h a (List.mem_cons_self a l))

theorem safe_eq_self (s : String) (h : Latin1 s) : safe s = s := by
  unfold safe
  conv_rhs => rw [show s = ⟨s.data⟩ from rfl]
  exact congrArg String.mk (map_safeChar_eq_self s.data h)

theorem digitChar_lt10_le (m : Nat) (h : m < 10) : (Nat.digitChar m).toNat ≤ 255 := by
  revert h
  revert m
  decide

theorem toDigitsCore_latin1 :
    ∀ (fuel n : Nat) (ds : List Char), (∀ c ∈ ds, c.toNat ≤ 255) →
      ∀ c ∈ Nat.toDigitsCore 10 fuel n ds, c.toNat ≤ 255 := by
  intro fuel
  induction fuel with
  | zero => intro n ds hds c hc; exact hds c hc
  | succ fuel ih =>
    intro n ds hds c hc
    simp only [Nat.toDigitsCore] at hc
    split at hc
    · rcases List.mem_cons.mp hc with h | h
      · subst h; exact digitChar_lt10_le _ (Nat.mod_lt n (by decide))
      · exact hds c h
    · refine ih (n / 10) _ ?_ c hc
      intro d hd
      rcases List.mem_cons.mp hd with h | h
      · subst h; exact digitChar_lt10_le _ (Nat.mod_lt n (by decide))
      · exact hds d h

theorem repr_latin1 (n : Nat) : Latin1 (Nat.repr n) := by
  intro c hc
  have : (Nat.repr n).data = Nat.toDigits 10 n := rfl
  rw [this] at hc
  exact toDigitsCore_latin1 (n + 1) n [] (by intro d hd; cases hd) c hc

/-! ## Field equations for the layout primitives -/

@[simp] theorem cellLn_page (h : Nat) (t : String) (st : PDFState) :
    (cellLn h t st).page = st.page := rfl
@[simp] theorem cellLn_texts (h : Nat) (t : String) (st : PDFState) :
    (cellLn h t st).texts = st.texts ++ [t] := rfl
@[simp] theorem cellLn_lines (h : Nat) (t : String) (st : PDFState) :
    (cellLn h t st).lines = st.lines := rfl
@[simp] theorem cellLn_edition (h : Nat) (t : String) (st : PDFState) :
    (cellLn h t st).edition = st.edition := rfl
@[simp] theorem cellLn_y (h : Nat) (t : String) (st : PDFState) :
    (cellLn h t st).y = st.y + h := rfl

@[simp] theorem cellStay_page (h : Nat) (t : String) (st : PDFState) :
    (cellStay h t st).page = st.page := rfl
@[simp] theorem cellStay_texts (h : Nat) (t : String) (st : PDFState) :
    (cellStay h t st).texts = st.texts ++ [t] := rfl
@[simp] theorem cellStay_lines (h : Nat) (t : String) (st : PDFState) :
    (cellStay h t st).lines = st.lines := rfl
@[simp] theorem cellStay_edition (h : Nat) (t : String) (st : PDFState) :
    (cellStay h t st).edition = st.edition := rfl

@[simp] theorem lnBy_page (h : Nat) (st : PDFState) : (lnBy h st).page = st.page := rfl
@[simp] theorem lnBy_texts (h : Nat) (st : PDFState) : (lnBy h st).texts = st.texts := rfl
@[simp] theorem lnBy_lines (h : Nat) (st : PDFState) : (lnBy h st).lines = st.lines := rfl
@[simp] theorem lnBy_edition (h : Nat) (st : PDFState) :
    (lnBy h st).edition = st.edition := rfl
@[simp] theorem lnBy_y (h : Nat) (st : PDFState) : (lnBy h st).y = st.y + h := rfl

@[simp] theorem multiCell_page (h : Nat) (t : String) (st : PDFState) :
    (multiCell h t st).page = st.page := rfl
@[simp] theorem multiCell_texts (h : Nat) (t : String) (st : PDFState) :
    (multiCell h t st).texts = st.texts ++ [t] := rfl
@[simp] theorem multiCell_lines (h : Nat) (t : String) (st : PDFState) :
    (multiCell h t st).lines = st.lines := rfl
@[simp] theorem multiCell_edition (h : Nat) (t : String) (st : PDFState) :
    (multiCell h t st).edition = st.edition := rfl

@[simp] theorem addPage_page (st : PDFState) : (addPage st).page = st.page + 1 := by
  simp only [addPage]
  by_cases h : 1 < st.page + 1
  · rw [if_pos h]; rfl
  · rw [if_neg h]
@[simp] theorem addPage_lines (st : PDFState) : (addPage st).lines = st.lines := by
  simp only [addPage]
  by_cases h : 1 < st.page + 1
  · rw [if_pos h]; rfl
  · rw [if_neg h]
@[simp] theorem addPage_edition (st : PDFState) : (addPage st).edition = st.edition := by
  simp only [addPage]
  by_cases h : 1 < st.page + 1
  · rw [if_pos h]; rfl
  · rw [if_neg h]
@[simp] theorem addPage_margins (st : PDFState) :
    (addPage st).margins = applyMargins (st.page + 1) := by
  simp only [addPage]
  by_cases h : 1 < st.page + 1
  · rw [if_pos h]; rfl
  · rw [if_neg h]

theorem addPage_texts (st : PDFState) :
    (addPage st).texts = st.texts ++
      (if 1 < st.page + 1 then
        [safe ("The Show and Movie Catalogue: " ++ st.edition ++ " Edition")]
      else []) := by
  simp only [addPage]
  by_cases h : 1 < st.page + 1
  · rw [if_pos h, if_pos h]; rfl
  · rw [if_neg h, if_neg h]; simp

theorem addPage_y_le (st : PDFState) : (addPage st).y ≤ CONTENT_BOTTOM := by
  simp only [addPage]
  by_cases h : 1 < st.page + 1
  · rw [if_pos h]; show MARGIN_TOP + 800 ≤ CONTENT_BOTTOM; decide
  · rw [if_neg h]; show MARGIN_TOP ≤ CONTENT_BOTTOM; decide

/-! ## Texts only grow: extension machinery -/

/-- `st'` extends `st`: everything `st` had emitted is still there, in place. -/
def ExtT (st st' : PDFState) : Prop := ∃ d, st'.texts = st.texts ++ d

theorem extT_rfl (st : PDFState) : ExtT st st := ⟨[], by simp⟩

theorem extT_trans {a b c : PDFState} (h1 : ExtT a b) (h2 : ExtT b c) : ExtT a c := by
  obtain ⟨d1, e1⟩ := h1
  obtain ⟨d2, e2⟩ := h2
  exact ⟨d1 ++ d2, by rw [e2, e1, List.append_assoc]⟩

theorem mem_of_extT {s : String} {st st' : PDFState}
    (h : s ∈ st.texts) (e : ExtT st st') : s ∈ st'.texts := by
  obtain ⟨d, ed⟩ := e
  rw [ed]
  exact List.mem_append_left d h

theorem extT_cellLn (h : Nat) (t : String) (st : PDFState) : ExtT st (cellLn h t st) :=
  ⟨[t], rfl⟩

theorem extT_cellStay (h : Nat) (t : String) (st : PDFState) : ExtT st (cellStay h t st) :=
  ⟨[t], rfl⟩

theorem extT_lnBy (h : Nat) (st : PDFState) : ExtT st (lnBy h st) := ⟨[], by simp⟩

theorem extT_multiCell (h : Nat) (t : String) (st : PDFState) : ExtT st (multiCell h t st) :=
  ⟨[t], rfl⟩

theorem extT_addPage (st : PDFState) : ExtT st (addPage st) :=
  ⟨_, addPage_texts st⟩

theorem extT_breakIfPast (st : PDFState) : ExtT st (breakIfPast st) := by
  unfold breakIfPast
  by_cases h : CONTENT_BOTTOM < st.y
  · rw [if_pos h]; exact extT_addPage st
  · rw [if_neg h]; exact extT_rfl st

theorem extT_placeLine (st : PDFState) (t : Title) : ExtT st (placeLine st t) :=
  extT_trans (extT_breakIfPast st) ⟨[safe ("  " ++ t.1 ++ yearSuffix t.2)], rfl⟩

theorem extT_foldl {α : Type} (f : PDFState → α → PDFState)
    (hf : ∀ st a, ExtT st (f st a)) :
    ∀ (l : List α) (st : PDFState), ExtT st (l.foldl f st) := by
  intro l
  induction l with
  | nil => intro st; exact extT_rfl st
  | cons a l ih => intro st; exact extT_trans (hf st a) (ih (f st a))

theorem extT_placeLines (ts : List Title) (st : PDFState) : ExtT st (placeLines ts st) :=
  extT_foldl placeLine extT_placeLine ts st

theorem extT_titleList (heading : String) (ts : List Title) (st : PDFState) :
    ExtT st (titleList heading ts st) := by
  unfold titleList
  exact extT_trans (extT_cellLn _ _ _) (extT_trans (extT_lnBy _ _) (extT_placeLines _ _))

theorem extT_sectionHead (name : String) (st : PDFState) : ExtT st (sectionHead name st) := by
  unfold sectionHead
  exact extT_trans (extT_addPage _) (extT_trans (extT_cellLn _ _ _) (extT_lnBy _ _))

theorem extT_providerSection (name : String) (s : Sections) (st : PDFState) :
    ExtT st (providerSection name s st) := by
  unfold providerSection
  exact extT_trans (extT_sectionHead _ _)
    (extT_trans (extT_titleList _ _ _) (extT_trans (extT_lnBy _ _) (extT_titleList _ _ _)))

theorem extT_indexBody (catalog : Catalog) (st : PDFState) : ExtT st (indexBody catalog st) := by
  unfold indexBody
  refine extT_foldl _ ?_ catalog st
  intro st p
  exact extT_trans (extT_cellLn _ _ _) (extT_trans (extT_cellLn _ _ _) (extT_lnBy _ _))

theorem extT_indexPage (catalog : Catalog) (st : PDFState) : ExtT st (indexPage catalog st) := by
  unfold indexPage
  exact extT_trans (extT_addPage _) (extT_trans (extT_cellLn _ _ _)
    (extT_trans (extT_lnBy _ _) (extT_trans (extT_indexBody _ _)
      (extT_trans (extT_lnBy _ _) (extT_trans (extT_lnBy _ _) (extT_cellLn _ _ _))))))

theorem extT_titlePage (st : PDFState) : ExtT st (titlePage st) := by
  unfold titlePage
  exact extT_trans (extT_addPage _) (extT_trans (extT_cellLn _ _ _)
    (extT_trans (extT_cellLn _ _ _) (extT_trans (extT_cellLn _ _ _)
      (extT_trans (extT_cellLn _ _ _) (extT_trans (extT_lnBy _ _)
        (extT_trans (extT_cellLn _ _ _) (extT_trans (extT_lnBy _ _)
          (extT_trans (extT_multiCell _ _ _) (extT_trans (extT_lnBy _ _)
            (extT_cellLn _ _ _))))))))))

theorem extT_backMatter (st : PDFState) : ExtT st (backMatter st) := by
  unfold backMatter
  exact extT_trans (extT_addPage _) (extT_trans (extT_cellLn _ _ _)
    (extT_trans (extT_cellLn _ _ _) (extT_trans (extT_lnBy _ _) (extT_multiCell _ _ _))))

theorem extT_padEven (st : PDFState) : ExtT st (padEven st) := by
  unfold padEven
  by_cases h : st.page % 2 = 1
  · rw [if_pos h]; exact extT_addPage st
  · rw [if_neg h]; exact extT_rfl st

theorem extT_sections (l : List (String × Sections)) (st : PDFState) :
    ExtT st (l.foldl (fun st p => providerSection p.1 p.2 st) st) := by
  induction l generalizing st with
  | nil => exact extT_rfl st
  | cons p l ih =>
    exact extT_trans (extT_providerSection p.1 p.2 st) (ih (providerSection p.1 p.2 st))

/-! ## Line placements -/

theorem breakIfPast_lines (st : PDFState) : (breakIfPast st).lines = st.lines := by
  unfold breakIfPast
  by_cases h : CONTENT_BOTTOM < st.y
  · rw [if_pos h]; exact addPage_lines st
  · rw [if_neg h]

theorem placeLine_lines (st : PDFState) (t : Title) :
    (placeLine st t).lines = st.lines ++
      [((breakIfPast st).page, (breakIfPast st).y, LINE_H)] := by
  show (breakIfPast st).lines ++ _ = _
  rw [breakIfPast_lines]

theorem breakIfPast_y_le (st : PDFState) : (breakIfPast st).y ≤ CONTENT_BOTTOM := by
  unfold breakIfPast
  by_cases h : CONTENT_BOTTOM < st.y
  · rw [if_pos h]; exact addPage_y_le st
  · rw [if_neg h]; exact Nat.le_of_not_lt h

theorem placeLine_lines_length (st : PDFState) (t : Title) :
    (placeLine st t).lines.length = st.lines.length + 1 := by
  rw [placeLine_lines, List.length_append, List.length_singleton]

theorem placeLines_lines_length (ts : List Title) (st : PDFState) :
    (placeLines ts st).lines.length = st.lines.length + ts.length := by
  induction ts generalizing st with
  | nil => simp [placeLines]
  | cons t ts ih =>
    show (placeLines ts (placeLine st t)).lines.length = _
    rw [ih (placeLine st t), placeLine_lines_length, List.length_cons]
    omega

theorem titleList_lines_length (heading : String) (ts : List Title) (st : PDFState) :
    (titleList heading ts st).lines.length = st.lines.length + ts.length := by
  unfold titleList
  rw [placeLines_lines_length]
  simp

theorem placeLines_lines_mem (ts : List Title) (st : PDFState) (b : Nat × Nat × Nat)
    (hb : b ∈ (placeLines ts st).lines) :
    b ∈ st.lines ∨ (b.2.1 ≤ CONTENT_BOTTOM ∧ b.2.2 = LINE_H) := by
  induction ts generalizing st with
  | nil => exact Or.inl hb
  | cons t ts ih =>
    rcases ih (placeLine st t) hb with h | h
    · rw [placeLine_lines] at h
      rcases List.mem_append.mp h with h | h
      · exact Or.inl h
      · rw [List.mem_singleton] at h
        subst h
        exact Or.inr ⟨breakIfPast_y_le st, rfl⟩
    · exact Or.inr h

/-! ## Page counts only grow -/

theorem breakIfPast_page_ge (st : PDFState) : st.page ≤ (breakIfPast st).page := by
  unfold breakIfPast
  by_cases h : CONTENT_BOTTOM < st.y
  · rw [if_pos h, addPage_page]; exact Nat.le_succ _
  · rw [if_neg h]

theorem placeLine_page_ge (st : PDFState) (t : Title) : st.page ≤ (placeLine st t).page :=
  breakIfPast_page_ge st

theorem placeLines_page_ge (ts : List Title) (st : PDFState) :
    st.page ≤ (placeLines ts st).page := by
  induction ts generalizing st with
  | nil => exact Nat.le_refl _
  | cons t ts ih =>
    exact Nat.le_trans (placeLine_page_ge st t) (ih (placeLine st t))

theorem titleList_page_ge (heading : String) (ts : List Title) (st : PDFState) :
    st.page ≤ (titleList heading ts st).page := by
  unfold titleList
  have h := placeLines_page_ge ts
    (lnBy 200 (cellLn 900 (safe (heading ++ " (" ++ Nat.repr ts.length ++ ")")) st))
  simpa using h

theorem providerSection_page_ge (name : String) (s : Sections) (st : PDFState) :
    st.page + 1 ≤ (providerSection name s st).page := by
  unfold providerSection sectionHead
  refine Nat.le_trans ?_ (titleList_page_ge _ _ _)
  show st.page + 1 ≤ (lnBy 500 (titleList "Movies" s.movies _)).page
  rw [lnBy_page]
  refine Nat.le_trans ?_ (titleList_page_ge _ _ _)
  simp

theorem sections_page_ge (l : List (String × Sections)) (st : PDFState) :
    st.page + l.length ≤ (l.foldl (fun st p => providerSection p.1 p.2 st) st).page := by
  induction l generalizing st with
  | nil => simp
  | cons p l ih =>
    show st.page + (l.length + 1) ≤ (l.foldl _ (providerSection p.1 p.2 st)).page
    have h1 := providerSection_page_ge p.1 p.2 st
    have h2 := ih (providerSection p.1 p.2 st)
    omega

theorem titlePage_page (st : PDFState) : (titlePage st).page = st.page + 1 := by
  unfold titlePage
  simp

theorem indexBody_page (catalog : Catalog) (st : PDFState) :
    (indexBody catalog st).page = st.page := by
  unfold indexBody
  induction catalog generalizing st with
  | nil => rfl
  | cons p l ih => rw [List.foldl_cons, ih]; simp

theorem indexPage_page (catalog : Catalog) (st : PDFState) :
    (indexPage catalog st).page = st.page + 1 := by
  unfold indexPage
  simp [indexBody_page]

theorem backMatter_page (st : PDFState) : (backMatter st).page = st.page + 1 := by
  unfold backMatter
  simp

theorem padEven_page_ge (st : PDFState) : st.page ≤ (padEven st).page := by
  unfold padEven
  by_cases h : st.page % 2 = 1
  · rw [if_pos h]; simp
  · rw [if_neg h]

/-! ## Membership of specific emitted strings -/

theorem titleList_mem_heading (heading : String) (ts : List Title) (st : PDFState) :
    safe (heading ++ " (" ++ Nat.repr ts.length ++ ")") ∈ (titleList heading ts st).texts := by
  unfold titleList
  exact mem_of_extT (mem_of_extT (by simp) (extT_lnBy 200 _)) (extT_placeLines ts _)

theorem indexBody_mem : ∀ (catalog : Catalog) (st : PDFState), ∀ p ∈ catalog,
    safe p.1 ∈ (indexBody catalog st).texts ∧
      safe (countText p) ∈ (indexBody catalog st).texts := by
  intro catalog
  induction catalog with
  | nil => intro st p hp; cases hp
  | cons q l ih =>
    intro st p hp
    have step : indexBody (q :: l) st =
        indexBody l (lnBy 200 (cellLn 600 (safe (countText q))
          (cellLn 700 (safe q.1) st))) := rfl
    rcases List.mem_cons.mp hp with h | h
    · subst h
      rw [step]
      exact ⟨mem_of_extT (by simp) (extT_indexBody l _),
             mem_of_extT (by simp) (extT_indexBody l _)⟩
    · rw [step]
      exact ih _ p h

theorem providerSection_mem_headings (name : String) (s : Sections) (st : PDFState) :
    safe ("Movies (" ++ Nat.repr s.movies.length ++ ")") ∈ (providerSection name s st).texts ∧
      safe ("Shows (" ++ Nat.repr s.shows.length ++ ")") ∈ (providerSection name s st).texts := by
  unfold providerSection
  constructor
  · exact mem_of_extT (mem_of_extT (titleList_mem_heading "Movies" s.movies _)
      (extT_lnBy 500 _)) (extT_titleList "Shows" s.shows _)
  · exact titleList_mem_heading "Shows" s.shows _

theorem sections_mem_headings :
    ∀ (l : List (String × Sections)) (st : PDFState), ∀ p ∈ l,
      safe ("Movies (" ++ Nat.repr p.2.movies.length ++ ")") ∈
          (l.foldl (fun st q => providerSection q.1 q.2 st) st).texts ∧
        safe ("Shows (" ++ Nat.repr p.2.shows.length ++ ")") ∈
          (l.foldl (fun st q => providerSection q.1 q.2 st) st).texts := by
  intro l
  induction l with
  | nil => intro st p hp; cases hp
  | cons q l ih =>
    intro st p hp
    rw [List.foldl_cons]
    rcases List.mem_cons.mp hp with h | h
    · subst h
      have hm := providerSection_mem_headings p.1 p.2 st
      exact ⟨mem_of_extT hm.1 (extT_sections l _), mem_of_extT hm.2 (extT_sections l _)⟩
    · exact ih _ p h

/-! ## Every emitted text is Latin-1 clean -/

def TextsL1 (st : PDFState) : Prop := ∀ s ∈ st.texts, Latin1 s

theorem l1_cellLn (h : Nat) (t : String) (st : PDFState)
    (ht : Latin1 t) (hst : TextsL1 st) : TextsL1 (cellLn h t st) := by
  intro s hs
  rw [cellLn_texts] at hs
  rcases List.mem_append.mp hs with h' | h'
  · exact hst s h'
  · rw [List.mem_singleton] at h'; subst h'; exact ht

theorem l1_cellStay (h : Nat) (t : String) (st : PDFState)
    (ht : Latin1 t) (hst : TextsL1 st) : TextsL1 (cellStay h t st) := by
  intro s hs
  rw [cellStay_texts] at hs
  rcases List.mem_append.mp hs with h' | h'
  · exact hst s h'
  · rw [List.mem_singleton] at h'; subst h'; exact ht

theorem l1_multiCell (h : Nat) (t : String) (st : PDFState)
    (ht : Latin1 t) (hst : TextsL1 st) : TextsL1 (multiCell h t st) := by
  intro s hs
  rw [multiCell_texts] at hs
  rcases List.mem_append.mp hs with h' | h'
  · exact hst s h'
  · rw [List.mem_singleton] at h'; subst h'; exact ht

theorem l1_lnBy (h : Nat) (st : PDFState) (hst : TextsL1 st) : TextsL1 (lnBy h st) := by
  intro s hs
  rw [lnBy_texts] at hs
  exact hst s hs

theorem l1_addPage (st : PDFState) (hst : TextsL1 st) : TextsL1 (addPage st) := by
  intro s hs
  rw [addPage_texts] at hs
  rcases List.mem_append.mp hs with h' | h'
  · exact hst s h'
  · split at h'
    · rw [List.mem_singleton] at h'; subst h'; exact latin1_safe _
    · cases h'

theorem l1_breakIfPast (st : PDFState) (hst : TextsL1 st) : TextsL1 (breakIfPast st) := by
  unfold breakIfPast
  by_cases h : CONTENT_BOTTOM < st.y
  · rw [if_pos h]; exact l1_addPage st hst
  · rw [if_neg h]; exact hst

theorem l1_placeLine (st : PDFState) (t : Title) (hst : TextsL1 st) :
    TextsL1 (placeLine st t) := by
  intro s hs
  have : s ∈ (breakIfPast st).texts ++ [safe ("  " ++ t.1 ++ yearSuffix t.2)] := hs
  rcases List.mem_append.mp this with h' | h'
  · exact l1_breakIfPast st hst s h'
  · rw [List.mem_singleton] at h'; subst h'; exact latin1_safe _

theorem l1_placeLines (ts : List Title) (st : PDFState) (hst : TextsL1 st) :
    TextsL1 (placeLines ts st) := by
  induction ts generalizing st with
  | nil => exact hst
  | cons t ts ih => exact ih (placeLine st t) (l1_placeLine st t hst)

theorem l1_titleList (heading : String) (ts : List Title) (st : PDFState)
    (hst : TextsL1 st) : TextsL1 (titleList heading ts st) := by
  unfold titleList
  exact l1_placeLines ts _ (l1_lnBy 200 _ (l1_cellLn 900 _ st (latin1_safe _) hst))

theorem l1_sectionHead (name : String) (st : PDFState) (hst : TextsL1 st) :
    TextsL1 (sectionHead name st) := by
  unfold sectionHead
  exact l1_lnBy 600 _ (l1_cellLn 1400 _ _ (latin1_safe _) (l1_addPage st hst))

theorem l1_providerSection (name : String) (s : Sections) (st : PDFState)
    (hst : TextsL1 st) : TextsL1 (providerSection name s st) := by
  unfold providerSection
  exact l1_titleList "Shows" s.shows _
    (l1_lnBy 500 _ (l1_titleList "Movies" s.movies _ (l1_sectionHead name st hst)))

theorem l1_sections (l : List (String × Sections)) (st : PDFState) (hst : TextsL1 st) :
    TextsL1 (l.foldl (fun st q => providerSection q.1 q.2 st) st) := by
  induction l generalizing st with
  | nil => exact hst
  | cons q l ih =>
    rw [List.foldl_cons]
    exact ih _ (l1_providerSection q.1 q.2 st hst)

theorem l1_indexBody (catalog : Catalog) (st : PDFState) (hst : TextsL1 st) :
    TextsL1 (indexBody catalog st) := by
  induction catalog generalizing st with
  | nil => exact hst
  | cons q l ih =>
    have step : indexBody (q :: l) st =
        indexBody l (lnBy 200 (cellLn 600 (safe (countText q))
          (cellLn 700 (safe q.1) st))) := rfl
    rw [step]
    exact ih _ (l1_lnBy 200 _ (l1_cellLn 600 _ _ (latin1_safe _)
      (l1_cellLn 700 _ st (latin1_safe _) hst)))

theorem l1_indexPage (catalog : Catalog) (st : PDFState) (hst : TextsL1 st) :
    TextsL1 (indexPage catalog st) := by
  unfold indexPage
  refine l1_cellLn 700 _ _ (latin1_safe _) ?_
  refine l1_lnBy 400 _ (l1_lnBy 800 _ ?_)
  refine l1_indexBody catalog _ ?_
  refine l1_lnBy 800 _ ?_
  refine l1_cellLn 1400 "Index" _ (by decide) ?_
  exact l1_addPage st hst

theorem l1_titlePage (st : PDFState) (hst : TextsL1 st) : TextsL1 (titlePage st) := by
  unfold titlePage
  refine l1_cellLn 500 _ _ (latin1_safe _) ?_
  refine l1_lnBy 1500 _ ?_
  refine l1_multiCell 500 _ _ (latin1_safe _) ?_
  refine l1_lnBy 2000 _ ?_
  refine l1_cellLn 1000 _ _ (latin1_safe _) ?_
  refine l1_lnBy 600 _ ?_
  refine l1_cellLn 1500 "Catalogue" _ (by decide) ?_
  refine l1_cellLn 1500 "Show and Movie" _ (by decide) ?_
  refine l1_cellLn 800 "The" _ (by decide) ?_
  refine l1_cellLn 4500 "" _ (by decide) ?_
  exact l1_addPage st hst

theorem l1_backMatter (st : PDFState) (hst : TextsL1 st) : TextsL1 (backMatter st) := by
  unfold backMatter
  refine l1_multiCell 500 _ _ (latin1_safe _) ?_
  refine l1_lnBy 400 _ ?_
  refine l1_cellLn 700 "Colophon" _ (by decide) ?_
  refine l1_cellLn 7000 "" _ (by decide) ?_
  exact l1_addPage st hst

theorem l1_padEven (st : PDFState) (hst : TextsL1 st) : TextsL1 (padEven st) := by
  unfold padEven
  by_cases h : st.page % 2 = 1
  · rw [if_pos h]; exact l1_addPage st hst
  · rw [if_neg h]; exact hst

theorem l1_buildPages (catalog : Catalog) (edition : String) :
    TextsL1 (buildPages catalog edition) := by
  unfold buildPages
  refine l1_padEven _ (l1_backMatter _ (l1_sections catalog _ (l1_indexPage catalog _
    (l1_titlePage _ ?_))))
  intro s hs
  cases hs

/-! ## Even-page padding helpers -/

theorem padEven_of_odd (st : PDFState) (h : st.page % 2 = 1) : padEven st = addPage st := by
  unfold padEven
  rw [if_pos h]

theorem padEven_of_even (st : PDFState) (h : st.page % 2 = 0) : padEven st = st := by
  unfold padEven
  rw [if_neg (by omega)]

theorem padEven_page_even (st : PDFState) : (padEven st).page % 2 = 0 := by
  by_cases h : st.page % 2 = 1
  · rw [padEven_of_odd st h, addPage_page]; omega
  · rw [padEven_of_even st (by omega)]; omega

theorem padEven_idem (st : PDFState) : padEven (padEven st) = padEven st :=
  padEven_of_even (padEven st) (padEven_page_even st)

theorem padEven_page_finish (st : PDFState) : (padEven st).page = finishPages st.page := by
  unfold finishPages
  by_cases h : st.page % 2 = 1
  · rw [if_pos h, padEven_of_odd st h, addPage_page]
  · rw [if_neg h, padEven_of_even st (by omega)]

theorem buildPages_page_even (catalog : Catalog) (edition : String) :
    (buildPages catalog edition).page % 2 = 0 := by
  unfold buildPages
  exact padEven_page_even _

/-! ## The realized page count is at least the template page count -/

theorem buildPages_page_ge (catalog : Catalog) (edition : String) :
    3 + catalog.length ≤ (buildPages catalog edition).page := by
  unfold buildPages
  refine Nat.le_trans ?_ (padEven_page_ge _)
  rw [backMatter_page]
  have h1 := sections_page_ge catalog (indexPage catalog (titlePage (initState edition)))
  rw [indexPage_page, titlePage_page] at h1
  have h0 : (initState edition).page = 0 := rfl
  rw [h0] at h1
  omega

/-! ## Template strings present in every build -/

theorem titlePage_mem_catalogue (st : PDFState) : "Catalogue" ∈ (titlePage st).texts := by
  unfold titlePage
  exact mem_of_extT (mem_of_extT (mem_of_extT (mem_of_extT (mem_of_extT
    (mem_of_extT (by simp) (extT_lnBy 600 _)) (extT_cellLn 1000 _ _))
    (extT_lnBy 2000 _)) (extT_multiCell 500 _ _)) (extT_lnBy 1500 _)) (extT_cellLn 500 _ _)

theorem indexPage_mem_index (catalog : Catalog) (st : PDFState) :
    "Index" ∈ (indexPage catalog st).texts := by
  unfold indexPage
  exact mem_of_extT (mem_of_extT (mem_of_extT (mem_of_extT
    (mem_of_extT (by simp) (extT_lnBy 800 _)) (extT_indexBody catalog _))
    (extT_lnBy 800 _)) (extT_lnBy 400 _)) (extT_cellLn 700 _ _)

theorem backMatter_mem_colophon (st : PDFState) : "Colophon" ∈ (backMatter st).texts := by
  unfold backMatter
  exact mem_of_extT (mem_of_extT (by simp) (extT_lnBy 400 _)) (extT_multiCell 500 _ _)

/-- Membership in the final text list, lifted over the whole build pipeline
from the state right after the title page. -/
theorem buildPages_extT_from_titlePage (catalog : Catalog) (edition : String) :
    ExtT (titlePage (initState edition)) (buildPages catalog edition) := by
  unfold buildPages
  exact extT_trans (extT_indexPage catalog _) (extT_trans (extT_sections catalog _)
    (extT_trans (extT_backMatter _) (extT_padEven _)))

theorem buildPages_extT_from_indexPage (catalog : Catalog) (edition : String) :
    ExtT (indexPage catalog (titlePage (initState edition))) (buildPages catalog edition) := by
  unfold buildPages
  exact extT_trans (extT_sections catalog _) (extT_trans (extT_backMatter _) (extT_padEven _))

theorem buildPages_extT_from_sections (catalog : Catalog) (edition : String) :
    ExtT ((catalog.foldl (fun st p => providerSection p.1 p.2 st)
            (indexPage catalog (titlePage (initState edition)))))
         (buildPages catalog edition) := by
  unfold buildPages
  exact extT_trans (extT_backMatter _) (extT_padEven _)

/-! ## The index-versus-sections count computation -/

theorem sections_fold_counts :
    ∀ (l : List (String × Sections)) (st : PDFState) (acc : List (String × Nat × Nat)),
      (l.foldl sectionStep (st, acc)).2 = acc ++ indexCounts l := by
  intro l
  induction l with
  | nil => intro st acc; simp [indexCounts]
  | cons p l ih =>
    intro st acc
    rw [List.foldl_cons]
    have step : sectionStep (st, acc) p =
        (providerSection p.1 p.2 st,
         acc ++ [(p.1,
           (titleList "Movies" p.2.movies (sectionHead p.1 st)).lines.length
             - (sectionHead p.1 st).lines.length,
           (titleList "Shows" p.2.shows
               (lnBy 500 (titleList "Movies" p.2.movies (sectionHead p.1 st)))).lines.length
             - (titleList "Movies" p.2.movies (sectionHead p.1 st)).lines.length)]) := rfl
    rw [step, ih]
    have hm : (titleList "Movies" p.2.movies (sectionHead p.1 st)).lines.length
        - (sectionHead p.1 st).lines.length = p.2.movies.length := by
      rw [titleList_lines_length]
      omega
    have hs : (titleList "Shows" p.2.shows
          (lnBy 500 (titleList "Movies" p.2.movies (sectionHead p.1 st)))).lines.length
        - (titleList "Movies" p.2.movies (sectionHead p.1 st)).lines.length
        = p.2.shows.length := by
      rw [titleList_lines_length]
      rw [lnBy_lines]
      omega
    rw [hm, hs]
    show acc ++ [(p.1, p.2.movies.length, p.2.shows.length)] ++ indexCounts l = _
    rw [List.append_assoc]
    rfl

theorem indexPage_mem_counts (catalog : Catalog) (st : PDFState)
    (p : String × Sections) (hp : p ∈ catalog) :
    safe p.1 ∈ (indexPage catalog st).texts ∧
      safe (countText p) ∈ (indexPage catalog st).texts := by
  unfold indexPage
  have h := indexBody_mem catalog (lnBy 800 (cellLn 1400 "Index" (addPage st))) p hp
  exact ⟨mem_of_extT (mem_of_extT (mem_of_extT h.1 (extT_lnBy 800 _))
          (extT_lnBy 400 _)) (extT_cellLn 700 _ _),
        mem_of_extT (mem_of_extT (mem_of_extT h.2 (extT_lnBy 800 _))
          (extT_lnBy 400 _)) (extT_cellLn 700 _ _)⟩

/-! # The claims -/

set_option maxRecDepth 4000 in
/-- C1, counterexample.  The claim says a page break is triggered whenever
`y + h > content_bottom`, so that no placed block's top-to-bottom span ever
crosses the content-bottom boundary.  On the catalog `cexCatalog` (one
provider with 40 movies) the 40th movie line is placed on page 3 starting at
cursor 215.50 mm, at most the 215.90 mm boundary, and extends to 219.70 mm —
its span crosses the boundary and no page break was triggered even though
`y + h > content_bottom` held. -/
theorem c1_counterexample :
    (3, 21550, 420) ∈ (buildPages cexCatalog "2025/01/01").lines
    ∧ 21550 ≤ CONTENT_BOTTOM ∧ CONTENT_BOTTOM < 21550 + 420 := by decide

/-- C1, amended.  In `_title_list` a page break is triggered before a title
line exactly when the cursor already strictly exceeds the content bottom
(`y > content_bottom`), not when `y + h` would cross it.  Hence every title
line is placed whole as one block (the cursor advances by exactly its
height), starting at a cursor at most the content bottom — but its span may
extend up to one line height past the boundary, and headings are placed with
no boundary check at all. -/
theorem c1_break_rule :
    ∀ (st : PDFState) (t : Title) (ts : List Title),
      ((placeLine st t).page ≠ st.page ↔ CONTENT_BOTTOM < st.y)
      ∧ (placeLine st t).lines
          = st.lines ++ [((breakIfPast st).page, (breakIfPast st).y, LINE_H)]
      ∧ (breakIfPast st).y ≤ CONTENT_BOTTOM
      ∧ (placeLine st t).y = (breakIfPast st).y + LINE_H
      ∧ (∀ b ∈ (placeLines ts st).lines,
          b ∈ st.lines ∨ (b.2.1 ≤ CONTENT_BOTTOM ∧ b.2.2 = LINE_H)) := by
  intro st t ts
  refine ⟨?_, placeLine_lines st t, breakIfPast_y_le st, rfl,
    fun b hb => placeLines_lines_mem ts st b hb⟩
  show (breakIfPast st).page ≠ st.page ↔ CONTENT_BOTTOM < st.y
  unfold breakIfPast
  by_cases h : CONTENT_BOTTOM < st.y
  · rw [if_pos h, addPage_page]
    exact iff_of_true (Nat.succ_ne_self _) h
  · rw [if_neg h]
    exact iff_of_false (fun hne => hne rfl) h

/-- Witness for `c1_break_rule` at a concrete state and title list. -/
theorem c1_break_rule_witness :
    (0, 0, 420) ∈ (initState "2025/01/01").lines
      ∨ ((0 : Nat) ≤ CONTENT_BOTTOM ∧ (420 : Nat) = LINE_H) :=
  (c1_break_rule (initState "2025/01/01") ("T", none) [("T", none)]).2.2.2.2
    (0, 0, 420) (by decide)

/-- C2: the margins assigned when a page begins are a pure function of the
page number's parity — odd page: gutter (wide) margin left, outside (narrow)
margin right; even page: mirrored; pages `n` and `n + 2` get identical
margins; and `add_page` assigns exactly these margins for the new page
number. -/
theorem c2_margins_parity :
    ∀ n : Nat,
      (n % 2 = 1 → applyMargins n = (MARGIN_GUTTER, MARGIN_OUTSIDE, MARGIN_TOP))
      ∧ (n % 2 = 0 → applyMargins n = (MARGIN_OUTSIDE, MARGIN_GUTTER, MARGIN_TOP))
      ∧ applyMargins (n + 2) = applyMargins n
      ∧ ∀ st : PDFState, (addPage st).margins = applyMargins (addPage st).page := by
  intro n
  refine ⟨?_, ?_, ?_, ?_⟩
  · intro h; unfold applyMargins; rw [if_pos h]
  · intro h; unfold applyMargins; rw [if_neg (by omega)]
  · unfold applyMargins
    have h2 : (n + 2) % 2 = n % 2 := by omega
    rw [h2]
  · intro st
    rw [addPage_margins, addPage_page]

/-- Witness for `c2_margins_parity` at pages 1 and 2. -/
theorem c2_margins_witness :
    applyMargins 1 = (MARGIN_GUTTER, MARGIN_OUTSIDE, MARGIN_TOP)
    ∧ applyMargins 2 = (MARGIN_OUTSIDE, MARGIN_GUTTER, MARGIN_TOP)
    ∧ applyMargins 3 = applyMargins 1 :=
  ⟨(c2_margins_parity 1).1 (by decide), (c2_margins_parity 2).2.1 (by decide),
   (c2_margins_parity 1).2.2.1⟩

/-- C3: the finishing step of `generate_pdf` makes the page count even —
it appends exactly one page when the count is odd (a pad page with no content
lines) and none otherwise — it is idempotent, and every built catalog ends
with an even page count. -/
theorem c3_finish_even_idempotent :
    (∀ st : PDFState,
        (padEven st).page % 2 = 0
        ∧ padEven (padEven st) = padEven st
        ∧ (st.page % 2 = 1 → padEven st = addPage st ∧ (padEven st).page = st.page + 1
            ∧ (padEven st).lines = st.lines)
        ∧ (st.page % 2 = 0 → padEven st = st)
        ∧ (padEven st).page = finishPages st.page)
    ∧ ∀ (catalog : Catalog) (edition : String),
        (buildPages catalog edition).page % 2 = 0 := by
  constructor
  · intro st
    refine ⟨padEven_page_even st, padEven_idem st, ?_, padEven_of_even st,
      padEven_page_finish st⟩
    intro h
    refine ⟨padEven_of_odd st h, ?_, ?_⟩
    · rw [padEven_of_odd st h, addPage_page]
    · rw [padEven_of_odd st h, addPage_lines]
  · intro catalog edition
    exact buildPages_page_even catalog edition

/-- Witness for `c3_finish_even_idempotent`: an odd one-page state gains
exactly one page; an even state is unchanged. -/
theorem c3_finish_witness :
    padEven (addPage (initState "2025/01/01")) = addPage (addPage (initState "2025/01/01"))
    ∧ padEven (initState "2025/01/01") = initState "2025/01/01" :=
  ⟨((c3_finish_even_idempotent.1 (addPage (initState "2025/01/01"))).2.2.1 (by decide)).1,
   (c3_finish_even_idempotent.1 (initState "2025/01/01")).2.2.2.1 (by decide)⟩

/-- C4: the per-provider counts and the grand total printed by the index are
the counts of title lines actually rendered in each provider's
`Movies (n)`/`Shows (n)` lists, and the index lists providers in exactly the
section order (both iterate the same catalog mapping); the printed index
count text and section heading text are in the built document for every
provider. -/
theorem c4_index_matches_sections :
    ∀ (catalog : Catalog) (edition : String),
      sectionsRenderedCounts catalog edition = indexCounts catalog
      ∧ indexTotal catalog
          = ((sectionsRenderedCounts catalog edition).map (fun e => e.2.1 + e.2.2)).sum
      ∧ (sectionsRenderedCounts catalog edition).map Prod.fst = catalog.map Prod.fst
      ∧ ∀ p ∈ catalog,
          safe (countText p) ∈ (buildPages catalog edition).texts
          ∧ safe ("Movies (" ++ Nat.repr p.2.movies.length ++ ")")
              ∈ (buildPages catalog edition).texts := by
  intro catalog edition
  have hcounts : sectionsRenderedCounts catalog edition = indexCounts catalog := by
    unfold sectionsRenderedCounts
    rw [sections_fold_counts]
    rfl
  refine ⟨hcounts, ?_, ?_, ?_⟩
  · rw [hcounts]
    unfold indexTotal indexCounts
    rw [List.map_map]
    rfl
  · rw [hcounts]
    unfold indexCounts
    rw [List.map_map]
    rfl
  · intro p hp
    constructor
    · exact mem_of_extT (indexPage_mem_counts catalog _ p hp).2
        (buildPages_extT_from_indexPage catalog edition)
    · exact mem_of_extT
        (sections_mem_headings catalog (indexPage catalog (titlePage (initState edition))) p hp).1
        (buildPages_extT_from_sections catalog edition)

set_option maxRecDepth 4000 in
/-- Witness for `c4_index_matches_sections` on a one-provider catalog. -/
theorem c4_index_witness :
    safe (countText ("Netflix", (⟨[], []⟩ : Sections)))
        ∈ (buildPages [("Netflix", ⟨[], []⟩)] "2025/01/01").texts :=
  ((c4_index_matches_sections [("Netflix", ⟨[], []⟩)] "2025/01/01").2.2.2
    ("Netflix", ⟨[], []⟩) (by decide)).1

/-- C8: when the realized page count exceeds the KDP page ceiling,
`generate_pdf` still writes the document (the output effect is first in the
tail trace in every case) and still returns `(output_path, pages)` exactly as
in the non-exceeding case; the warning effect is present exactly when the
count exceeds the ceiling. -/
theorem c8_warning_advisory :
    ∀ (catalog : Catalog) (edition path : String),
      (generate_pdf catalog edition path).1 = (path, (buildPages catalog edition).page)
      ∧ (generate_pdf catalog edition path).2.head? = some (OutEffect.output path)
      ∧ (OutEffect.warned ∈ (generate_pdf catalog edition path).2
          ↔ KDP_MAX_PAGES < (buildPages catalog edition).page) := by
  intro catalog edition path
  unfold generate_pdf
  refine ⟨rfl, rfl, ?_⟩
  by_cases h : KDP_MAX_PAGES < (buildPages catalog edition).page
  · rw [if_pos h]
    simp [h]
  · rw [if_neg h]
    simp [h]

/-- C9: every text block in the emitted document (body cells and page-number
footers) contains only Latin-1-encodable characters, for arbitrary Unicode
catalog input; `safe` always produces a Latin-1-clean string (total over all
of Unicode, replacement for the rest) and is the identity on Latin-1-clean
strings. -/
theorem c9_latin1_total :
    (∀ (catalog : Catalog) (edition : String), ∀ s ∈ emittedTexts catalog edition, Latin1 s)
    ∧ (∀ t : String, Latin1 (safe t))
    ∧ (∀ t : String, Latin1 t → safe t = t) := by
  refine ⟨?_, latin1_safe, safe_eq_self⟩
  intro catalog edition s hs
  unfold emittedTexts at hs
  rcases List.mem_append.mp hs with h | h
  · exact l1_buildPages catalog edition s h
  · obtain ⟨i, _, rfl⟩ := List.mem_map.mp h
    exact repr_latin1 _

set_option maxRecDepth 4000 in
/-- Witness for `c9_latin1_total`: a non-Latin-1 title renders as the cleaned
line `"  ?"`, which is Latin-1 clean, and `safe` fixes an ASCII literal. -/
theorem c9_latin1_witness :
    Latin1 "  ?" ∧ safe "Index" = "Index" :=
  ⟨c9_latin1_total.1 [("P", ⟨[("汉", none)], []⟩)] "2025/01/01" "  ?" (by decide),
   c9_latin1_total.2.2 "Index" (by decide)⟩

/-- C10: for every catalog — including the empty one and providers with
empty lists — the build succeeds and produces the full template: an even
page count of at least 4, at least one page per provider beyond title,
index and colophon pages, with the title page, index and colophon markers
present and the `Movies (n)`/`Shows (n)` headings rendered for every
provider (in particular `Movies (0)`/`Shows (0)` when the lists are
empty). -/
theorem c10_template_integrity :
    ∀ (catalog : Catalog) (edition : String),
      (buildPages catalog edition).page % 2 = 0
      ∧ 4 ≤ (buildPages catalog edition).page
      ∧ 3 + catalog.length ≤ (buildPages catalog edition).page
      ∧ "Catalogue" ∈ (buildPages catalog edition).texts
      ∧ "Index" ∈ (buildPages catalog edition).texts
      ∧ "Colophon" ∈ (buildPages catalog edition).texts
      ∧ ∀ p ∈ catalog,
          safe ("Movies (" ++ Nat.repr p.2.movies.length ++ ")")
              ∈ (buildPages catalog edition).texts
          ∧ safe ("Shows (" ++ Nat.repr p.2.shows.length ++ ")")
              ∈ (buildPages catalog edition).texts := by
  intro catalog edition
  have heven := buildPages_page_even catalog edition
  have hge := buildPages_page_ge catalog edition
  refine ⟨heven, by omega, hge, ?_, ?_, ?_, ?_⟩
  · exact mem_of_extT (titlePage_mem_catalogue _)
      (buildPages_extT_from_titlePage catalog edition)
  · exact mem_of_extT (indexPage_mem_index catalog _)
      (buildPages_extT_from_indexPage catalog edition)
  · show "Colophon" ∈ (padEven (backMatter _)).texts
    exact mem_of_extT (backMatter_mem_colophon _) (extT_padEven _)
  · intro p hp
    have h := sections_mem_headings catalog
      (indexPage catalog (titlePage (initState edition))) p hp
    exact ⟨mem_of_extT h.1 (buildPages_extT_from_sections catalog edition),
           mem_of_extT h.2 (buildPages_extT_from_sections catalog edition)⟩

set_option maxRecDepth 4000 in
/-- Witness for `c10_template_integrity`: a provider with empty lists still
gets its `Movies (0)` and `Shows (0)` headings. -/
theorem c10_template_witness :
    safe "Movies (0)" ∈ (buildPages [("Netflix", ⟨[], []⟩)] "2025/01/01").texts
    ∧ safe "Shows (0)" ∈ (buildPages [("Netflix", ⟨[], []⟩)] "2025/01/01").texts :=
  (c10_template_integrity [("Netflix", ⟨[], []⟩)] "2025/01/01").2.2.2.2.2.2
    ("Netflix", ⟨[], []⟩) (by decide)

/-! ## The fetcher post-processing: order lemmas -/

theorem lexLe_total : ∀ x y : List Char, lexLe x y = true ∨ lexLe y x = true := by
  intro x
  induction x with
  | nil => intro y; exact Or.inl rfl
  | cons a as ih =>
    intro y
    cases y with
    | nil => exact Or.inr rfl
    | cons b bs =>
      rcases lt_trichotomy a b with h | h | h
      · left
        show (if a < b then true else if a = b then lexLe as bs else false) = true
        rw [if_pos h]
      · subst h
        rcases ih bs with h2 | h2
        · left
          show (if a < a then true else if a = a then lexLe as bs else false) = true
          rw [if_neg (lt_irrefl a), if_pos rfl]
          exact h2
        · right
          show (if a < a then true else if a = a then lexLe bs as else false) = true
          rw [if_neg (lt_irrefl a), if_pos rfl]
          exact h2
      · right
        show (if b < a then true else if b = a then lexLe bs as else false) = true
        rw [if_pos h]

theorem lexLe_trans :
    ∀ x y z : List Char, lexLe x y = true → lexLe y z = true → lexLe x z = true := by
  intro x
  induction x with
  | nil => intro y z _ _; rfl
  | cons a as ih =>
    intro y z hxy hyz
    cases y with
    | nil => simp [lexLe] at hxy
    | cons b bs =>
      cases z with
      | nil => simp [lexLe] at hyz
      | cons c cs =>
        simp only [lexLe] at hxy hyz ⊢
        by_cases hab : a < b
        · by_cases hbc : b < c
          · rw [if_pos (lt_trans hab hbc)]
          · by_cases hbceq : b = c
            · subst hbceq
              rw [if_pos hab]
            · rw [if_neg hbc, if_neg hbceq] at hyz
              simp at hyz
        · by_cases habeq : a = b
          · subst habeq
            rw [if_neg hab, if_pos rfl] at hxy
            by_cases hac : a < c
            · rw [if_pos hac]
            · by_cases haceq : a = c
              · subst haceq
                rw [if_neg hac, if_pos rfl] at hyz ⊢
                exact ih bs cs hxy hyz
              · rw [if_neg hac, if_neg haceq] at hyz
                simp at hyz
          · rw [if_neg hab, if_neg habeq] at hxy
            simp at hxy

instance (cf : String → String) : IsTotal Title (titleLe cf) :=
  ⟨fun a b => lexLe_total (cf a.1).data (cf b.1).data⟩

instance (cf : String → String) : IsTrans Title (titleLe cf) :=
  ⟨fun _ _ _ hab hbc => lexLe_trans _ _ _ hab hbc⟩

/-! ## The fetcher post-processing: dedup lemmas, for any dedup key `lo` -/

theorem dedupFirstAux_find (lo : String → String) :
    ∀ (ts : List Title) (seen : List String) (t : Title),
      t ∈ dedupFirstAux lo seen ts →
        lo t.1 ∉ seen ∧
          ts.find? (fun u => lo u.1 == lo t.1) = some t := by
  intro ts
  induction ts with
  | nil => intro seen t ht; cases ht
  | cons h rest ih =>
    intro seen t ht
    unfold dedupFirstAux at ht
    by_cases hin : lo h.1 ∈ seen
    · rw [if_pos hin] at ht
      obtain ⟨hnotseen, hfind⟩ := ih seen t ht
      have hne : ¬(lo h.1 == lo t.1) = true := by
        rw [beq_iff_eq]
        intro he
        exact hnotseen (he ▸ hin)
      exact ⟨hnotseen, by
        rw [@List.find?_cons_of_neg Title (fun u => lo u.1 == lo t.1) h rest hne]
        exact hfind⟩
    · rw [if_neg hin] at ht
      rcases List.mem_cons.mp ht with he | hrec
      · subst he
        exact ⟨hin, by
          rw [@List.find?_cons_of_pos Title (fun u => lo u.1 == lo t.1) t
            rest (by rw [beq_iff_eq])]⟩
      · obtain ⟨hnotseen, hfind⟩ := ih (lo h.1 :: seen) t hrec
        have hne : lo h.1 ≠ lo t.1 := by
          intro he
          exact hnotseen (by rw [← he]; exact List.mem_cons_self _ _)
        refine ⟨fun hmem => hnotseen (List.mem_cons_of_mem _ hmem), ?_⟩
        rw [@List.find?_cons_of_neg Title (fun u => lo u.1 == lo t.1) h rest
          (by rw [beq_iff_eq]; exact hne)]
        exact hfind

theorem dedupFirstAux_keys_nodup (lo : String → String) :
    ∀ (ts : List Title) (seen : List String),
      ((dedupFirstAux lo seen ts).map (fun t => lo t.1)).Nodup := by
  intro ts
  induction ts with
  | nil => intro seen; simp [dedupFirstAux]
  | cons h rest ih =>
    intro seen
    unfold dedupFirstAux
    by_cases hin : lo h.1 ∈ seen
    · rw [if_pos hin]
      exact ih seen
    · rw [if_neg hin]
      rw [List.map_cons, List.nodup_cons]
      refine ⟨?_, ih (lo h.1 :: seen)⟩
      intro hmem
      obtain ⟨u, hu, hk⟩ := List.mem_map.mp hmem
      have := (dedupFirstAux_find lo rest (lo h.1 :: seen) u hu).1
      exact this (by rw [hk]; exact List.mem_cons_self _ _)

theorem dedupFirstAux_covers (lo : String → String) :
    ∀ (ts : List Title) (seen : List String) (t : Title),
      t ∈ ts → lo t.1 ∉ seen →
        ∃ u ∈ dedupFirstAux lo seen ts, lo u.1 = lo t.1 := by
  intro ts
  induction ts with
  | nil => intro seen t ht _; cases ht
  | cons h rest ih =>
    intro seen t ht hns
    unfold dedupFirstAux
    by_cases hin : lo h.1 ∈ seen
    · rw [if_pos hin]
      rcases List.mem_cons.mp ht with he | hrec
      · subst he; exact absurd hin hns
      · exact ih seen t hrec hns
    · rw [if_neg hin]
      rcases List.mem_cons.mp ht with he | hrec
      · subst he
        exact ⟨t, List.mem_cons_self _ _, rfl⟩
      · by_cases hk : lo t.1 = lo h.1
        · exact ⟨h, List.mem_cons_self _ _, hk.symm⟩
        · obtain ⟨u, hu, hk'⟩ := ih (lo h.1 :: seen) t hrec (by
            intro hmem
            rcases List.mem_cons.mp hmem with h1 | h1
            · exact hk h1
            · exact hns h1)
          exact ⟨u, List.mem_cons_of_mem _ hu, hk'⟩

/-- C5: the tail of `fetch_titles` deduplicates case-insensitively by name,
keeping the first occurrence in input (popularity) order, then sorts
case-insensitively by name.  The dedup key `str.lower` and the distinct sort
key `str.casefold` are runtime Unicode tables, so the pipeline is proved for
every pair of key functions `lo` and `cf` — hence in particular for the real
ones: the output is sorted under the code-point order of the `cf`-keys, has
pairwise distinct `lo`-keys, consists precisely of first occurrences (each
output element is what `find?` returns for its `lo`-key on the raw input),
and covers every input `lo`-key.  The claimed all-ASCII example, on which
both Python key functions equal ASCII lowering, evaluates exactly as
stated. -/
theorem c5_fetch_dedup_sort :
    dedupSortTitles asciiLower asciiLower duneInput = duneOutput
    ∧ ∀ (lo cf : String → String) (ts : List Title),
        List.Sorted (titleLe cf) (dedupSortTitles lo cf ts)
        ∧ ((dedupSortTitles lo cf ts).map (fun t => lo t.1)).Nodup
        ∧ (∀ t ∈ dedupSortTitles lo cf ts,
            ts.find? (fun u => lo u.1 == lo t.1) = some t)
        ∧ (∀ t ∈ ts, ∃ u ∈ dedupSortTitles lo cf ts, lo u.1 = lo t.1) := by
  constructor
  · decide
  · intro lo cf ts
    have hperm := List.perm_insertionSort (titleLe cf) (dedupFirst lo ts)
    refine ⟨List.sorted_insertionSort (titleLe cf) (dedupFirst lo ts), ?_, ?_, ?_⟩
    · exact ((hperm.map (fun t => lo t.1)).nodup_iff).mpr
        (dedupFirstAux_keys_nodup lo ts [])
    · intro t ht
      exact (dedupFirstAux_find lo ts [] t (hperm.mem_iff.mp ht)).2
    · intro t ht
      obtain ⟨u, hu, hk⟩ := dedupFirstAux_covers lo ts [] t ht (by intro hmem; cases hmem)
      exact ⟨u, hperm.mem_iff.mpr hu, hk⟩

/-- Witness for `c5_fetch_dedup_sort` at the ASCII-lowering instantiation of
both keys: in the claimed example, the kept `"Dune"` entry is the first
occurrence of its lowered key in the input. -/
theorem c5_fetch_witness :
    duneInput.find? (fun u => asciiLower u.1 == asciiLower ("Dune", some "2021").1)
      = some ("Dune", some "2021") :=
  (c5_fetch_dedup_sort.2 asciiLower asciiLower duneInput).2.2.1
    ("Dune", some "2021") (by decide)

/-! ## Cache round trip lemmas -/

theorem decodeTitle_encodeTitle (t : Title) : decodeTitle (encodeTitle t) = Except.ok t := by
  obtain ⟨n, yr⟩ := t
  cases yr <;> rfl

theorem mapM_decodeTitle_encode :
    ∀ l : List Title, (l.map encodeTitle).mapM decodeTitle = Except.ok l := by
  intro l
  induction l with
  | nil => rfl
  | cons t ts ih =>
    rw [List.map_cons, List.mapM_cons, decodeTitle_encodeTitle, ih]
    rfl

theorem decodeTitles_encode (l : List Title) :
    decodeTitles (Json.arr (l.map encodeTitle)) = Except.ok l := by
  show (l.map encodeTitle).mapM decodeTitle = Except.ok l
  exact mapM_decodeTitle_encode l

theorem decodeSections_encode (s : Sections) :
    decodeSections (encodeSections s) = Except.ok s := by
  obtain ⟨ms, ss⟩ := s
  have h : decodeSections (encodeSections ⟨ms, ss⟩) =
      (do
        let a ← decodeTitles (Json.arr (ms.map encodeTitle))
        let b ← decodeTitles (Json.arr (ss.map encodeTitle))
        Except.ok (⟨a, b⟩ : Sections)) := rfl
  rw [h, decodeTitles_encode, decodeTitles_encode]
  rfl

theorem mapM_decodeSections_encode :
    ∀ l : Catalog,
      (l.map (fun p => (p.1, encodeSections p.2))).mapM
        (fun p => do
          let s ← decodeSections p.2
          Except.ok (p.1, s)) = Except.ok l := by
  intro l
  induction l with
  | nil => rfl
  | cons p l ih =>
    rw [List.map_cons, List.mapM_cons]
    simp only [decodeSections_encode, ih]
    rfl

/-- C6: loading the cache produced by saving any catalog reconstructs a
structurally equal catalog — same provider order, same `Movies`/`Shows`
structure, same ordered `(name, year)` tuples, including providers with
empty sections — for every region and fetch timestamp. -/
theorem c6_cache_round_trip :
    ∀ (catalog : Catalog) (region fetchedAt : String),
      load_cache (save_cache catalog region fetchedAt) = Except.ok catalog := by
  intro catalog region fetchedAt
  have h : load_cache (save_cache catalog region fetchedAt) =
      (catalog.map (fun p => (p.1, encodeSections p.2))).mapM
        (fun p => do
          let s ← decodeSections p.2
          Except.ok (p.1, s)) := rfl
  rw [h]
  exact mapM_decodeSections_encode catalog

/-! ## Fetcher per-item title extraction lemmas -/

theorem pyOr_ne (a : Option String) (b : String) (hb : b ≠ "") : pyOr a b ≠ "" := by
  cases a with
  | none => exact hb
  | some s =>
    show (if s = "" then b else s) ≠ ""
    by_cases hs : s = ""
    · rw [if_pos hs]; exact hb
    · rw [if_neg hs]; exact hs

theorem string_length_data (u : String) : u.length = u.data.length := rfl

/-- C7, counterexample.  The claim says every fetched title's year is absent
or a 4-digit string; for a provider item whose release date is the
two-character string `"19"`, the code takes `release[:4]` and produces the
year `"19"`, which is not a 4-digit string (the name fallback still
holds). -/
theorem c7_counterexample :
    itemTitle shortReleaseItem = ("X", some "19")
    ∧ yearOk (itemYear shortReleaseItem) = false := by decide

/-- C7, amended.  Every title produced by the fetcher has a non-empty name
(falling back to `"Unknown"` when the item has no `title`/`name`, including
empty strings); its year is either absent or a non-empty string of at most
4 characters (the first four characters of the release date) — and it is a
4-digit string whenever the release date is well-formed (empty or starting
with four digits, as TMDB dates do). -/
theorem c7_title_invariants :
    ∀ it : TmdbItem,
      itemName it ≠ ""
      ∧ (∀ y, itemYear it = some y → y ≠ "" ∧ y.length ≤ 4)
      ∧ (releaseWellFormed it → yearOk (itemYear it) = true) := by
  intro it
  refine ⟨pyOr_ne _ _ (pyOr_ne _ _ (by decide)), ?_, ?_⟩
  · intro y hy
    unfold itemYear at hy
    by_cases hr : itemRelease it = ""
    · rw [if_pos hr] at hy
      cases hy
    · rw [if_neg hr] at hy
      have hyv := Option.some.inj hy
      subst hyv
      constructor
      · intro hemp
        apply hr
        have hdata : (itemRelease it).data.take 4 = [] := by
          rw [← String.data_take, hemp]
        rcases List.take_eq_nil_iff.mp hdata with h4 | hdnil
        · exact absurd h4 (by decide)
        · exact String.ext hdnil
      · rw [string_length_data, String.data_take, List.length_take]
        exact min_le_left _ _
  · intro hwf
    unfold itemYear
    by_cases hr : itemRelease it = ""
    · rw [if_pos hr]
      rfl
    · rw [if_neg hr]
      rcases hwf with h | ⟨hlen, hdig⟩
      · exact absurd h hr
      · show isFourDigit ((itemRelease it).take 4) = true
        unfold isFourDigit
        rw [Bool.and_eq_true, beq_iff_eq]
        constructor
        · rw [string_length_data, String.data_take, List.length_take]
          refine min_eq_left ?_
          rw [← string_length_data]
          exact hlen
        · rw [List.all_eq_true]
          intro c hc
          rw [String.data_take] at hc
          exact hdig c hc

/-- Witness for `c7_title_invariants` at a well-formed TMDB item. -/
theorem c7_title_witness :
    itemName ⟨some "Dune", none, some "2021-10-22", none⟩ ≠ ""
    ∧ yearOk (itemYear ⟨some "Dune", none, some "2021-10-22", none⟩) = true :=
  ⟨(c7_title_invariants ⟨some "Dune", none, some "2021-10-22", none⟩).1,
   (c7_title_invariants ⟨some "Dune", none, some "2021-10-22", none⟩).2.2
     (Or.inr ⟨by decide, by decide⟩)⟩
